import Mathlib

/-!
Verification development for the nasal-analyses notebook
(src/nasals-2017-10-20.ipynb).

The notebook is a three-stage pipeline: pandas data preparation, a
scikit-learn Gaussian-mixture fit, and clustering evaluation with the
B-Cubed F1 metric of the accompanying bcubed module together with
normalized mutual information.  The data-preparation logic is embedded
directly from the notebook cells; the bcubed module and the
scikit-learn routines are not shipped in the repository snapshot, so
those parts are modelled from the specification and are marked as such
in their doc comments.
-/

set_option maxHeartbeats 1000000

/-! ## Data preparation (notebook cells 9, 10 and 11)

A data frame row is a partial map from column name to cell value;
a missing (NA/NaN) entry is `none`.  The notebook first subsets the
frame to rows whose "Following Vowel" column equals "A", then drops
rows with a missing value in any predictor column, and finally reads
the predictor matrix `X` and the gold column `Y_pandas` off the
filtered frame. -/

/-- A cell of the CSV frame: either a categorical string or a numeric
measurement. -/
inductive Cell : Type
  | str : String → Cell
  | num : ℚ → Cell
deriving DecidableEq

/-- Notebook cell 9: `d = d[d["Following Vowel"] == "A"]`.  Keeps the
rows whose context column holds exactly the required value; a missing
context value compares unequal, as in pandas. -/
def filterContext {V : Type} [DecidableEq V] (ctxCol : String) (ctxVal : V)
    (rows : List (String → Option V)) : List (String → Option V) :=
  rows.filter fun r => decide (r ctxCol = some ctxVal)

/-- Notebook cell 10: `d = d.dropna(axis=0, how='any', subset=X_COL_NAMES)`.
Keeps the rows with no missing value in any of the given columns. -/
def dropnaSubset {V : Type} (cols : List String)
    (rows : List (String → Option V)) : List (String → Option V) :=
  rows.filter fun r => cols.all fun c => (r c).isSome

/-- The filtered frame `d` after notebook cells 9 and 10. -/
def prepRows {V : Type} [DecidableEq V] (ctxCol : String) (ctxVal : V)
    (predCols : List String) (rows : List (String → Option V)) :
    List (String → Option V) :=
  dropnaSubset predCols (filterContext ctxCol ctxVal rows)

/-- The row-eligibility predicate implied by the two successive filters
of cells 9 and 10. -/
def eligibleRow {V : Type} [DecidableEq V] (ctxCol : String) (ctxVal : V)
    (predCols : List String) (r : String → Option V) : Bool :=
  decide (r ctxCol = some ctxVal) && (predCols.all fun c => (r c).isSome)

/-- Notebook cell 10: `X = stack((d[c].values for c in X_COL_NAMES), axis=1)`.
Row i of the feature matrix lists the predictor-column values of row i
of the filtered frame. -/
def featureMatrix {V : Type} [DecidableEq V] (ctxCol : String) (ctxVal : V)
    (predCols : List String) (rows : List (String → Option V)) :
    List (List V) :=
  (prepRows ctxCol ctxVal predCols rows).map fun r => predCols.filterMap r

/-- Notebook cell 11: `Y_pandas = d["Nasal Segment"]`.  The gold-label
sequence read off the filtered frame; a label may itself be missing. -/
def goldLabels {V : Type} [DecidableEq V] (ctxCol : String) (ctxVal : V)
    (predCols : List String) (goldCol : String)
    (rows : List (String → Option V)) : List (Option V) :=
  (prepRows ctxCol ctxVal predCols rows).map fun r => r goldCol

/-- Notebook constant: the predictor columns. -/
def X_COL_NAMES : List String :=
  ["Juncture F1_Bark", "Juncture F2_Bark", "Juncture F3_Bark"]

/-- Notebook constant: the context column used for subsetting. -/
def CONTEXT_COL : String := "Following Vowel"

/-- Notebook constant: the required context value. -/
def CONTEXT_VAL : Cell := Cell.str "A"

/-- Notebook constant: the gold-label column. -/
def GOLD_COL : String := "Nasal Segment"

/-- Notebook constant: the random seed. -/
def SEED : Nat := 11215

/-- Notebook constant: the number of mixture components. -/
def N_COMPONENTS : Nat := 5

/-! ## B-Cubed clustering score (notebook cell 7 imports
`from bcubed import ClusterScore`)

The bcubed module is the notebook author's own code; it is imported by
the notebook but absent from the repository snapshot, so it is
modelled from the specification here. -/

/-- Modelled from the spec: in the absent `bcubed.ClusterScore`, the
element-inclusive hypothesis cluster-mate positions of element `i`,
found by the naive all-positions scan the spec attributes to the
original implementation. -/
def ClusterScore.hypMates {α β : Type} [DecidableEq α] [DecidableEq β]
    (gld : List α) (hyp : List β) (i : Nat) : List Nat :=
  (List.range gld.length).filter fun j => decide (hyp[j]? = hyp[i]?)

/-- Modelled from the spec: in the absent `bcubed.ClusterScore`, the
element-inclusive gold cluster-mate positions of element `i`. -/
def ClusterScore.goldMates {α β : Type} [DecidableEq α] [DecidableEq β]
    (gld : List α) (_hyp : List β) (i : Nat) : List Nat :=
  (List.range gld.length).filter fun j => decide (gld[j]? = gld[i]?)

/-- Modelled from the spec: in the absent `bcubed.ClusterScore`, the
positions that are cluster mates of `i` in both partitions at once. -/
def ClusterScore.bothMates {α β : Type} [DecidableEq α] [DecidableEq β]
    (gld : List α) (hyp : List β) (i : Nat) : List Nat :=
  (List.range gld.length).filter fun j =>
    decide (gld[j]? = gld[i]?) && decide (hyp[j]? = hyp[i]?)

/-- Modelled from the spec: B-Cubed overall precision of the absent
`bcubed.ClusterScore`: the mean over all elements of the per-element
ratio of shared cluster mates to hypothesis cluster mates. -/
def ClusterScore.precision {α β : Type} [DecidableEq α] [DecidableEq β]
    (gld : List α) (hyp : List β) : ℚ :=
  (((List.range gld.length).map fun i =>
      ((ClusterScore.bothMates gld hyp i).length : ℚ) /
        ((ClusterScore.hypMates gld hyp i).length : ℚ)).sum) / (gld.length : ℚ)

/-- Modelled from the spec: B-Cubed overall recall of the absent
`bcubed.ClusterScore`: the mean over all elements of the per-element
ratio of shared cluster mates to gold cluster mates. -/
def ClusterScore.recall {α β : Type} [DecidableEq α] [DecidableEq β]
    (gld : List α) (hyp : List β) : ℚ :=
  (((List.range gld.length).map fun i =>
      ((ClusterScore.bothMates gld hyp i).length : ℚ) /
        ((ClusterScore.goldMates gld hyp i).length : ℚ)).sum) / (gld.length : ℚ)

/-- Modelled from the spec: `bcubed.ClusterScore(gld, hyp).f1()`, the
harmonic mean of overall precision and recall, defined as 0 when both
vanish. -/
def ClusterScore.f1 {α β : Type} [DecidableEq α] [DecidableEq β]
    (gld : List α) (hyp : List β) : ℚ :=
  let p := ClusterScore.precision gld hyp
  let r := ClusterScore.recall gld hyp
  if p + r = 0 then 0 else 2 * p * r / (p + r)

/-! ## Reference B-Cubed definition

A second definition of B-Cubed F1 written directly from the words of
the specification (element-inclusive cluster-mate sets, intersection
cardinalities, means, harmonic mean), to be compared with the
implementation-style definition above. -/

/-- The element-inclusive gold cluster-mate set of element `i`, as a
set of positions. -/
def refGoldMates {α : Type} [DecidableEq α] (g : List α) (i : Nat) :
    Finset Nat :=
  (Finset.range g.length).filter fun j => g[j]? = g[i]?

/-- The element-inclusive hypothesis cluster-mate set of element `i`,
as a set of positions. -/
def refHypMates {β : Type} [DecidableEq β] (h : List β) (i : Nat) :
    Finset Nat :=
  (Finset.range h.length).filter fun j => h[j]? = h[i]?

/-- Reference overall B-Cubed precision: the mean over all elements of
the intersection cardinality divided by the hypothesis cluster-mate
set cardinality. -/
def refPrecision {α β : Type} [DecidableEq α] [DecidableEq β]
    (g : List α) (h : List β) : ℚ :=
  (∑ i ∈ Finset.range g.length,
      (((refGoldMates g i ∩ refHypMates h i).card : ℚ) /
        ((refHypMates h i).card : ℚ))) / (g.length : ℚ)

/-- Reference overall B-Cubed recall: the mean over all elements of
the intersection cardinality divided by the gold cluster-mate set
cardinality. -/
def refRecall {α β : Type} [DecidableEq α] [DecidableEq β]
    (g : List α) (h : List β) : ℚ :=
  (∑ i ∈ Finset.range g.length,
      (((refGoldMates g i ∩ refHypMates h i).card : ℚ) /
        ((refGoldMates g i).card : ℚ))) / (g.length : ℚ)

/-- Reference B-Cubed F1: the harmonic mean of overall precision and
recall, defined as 0 when both overall precision and overall recall
are 0. -/
def refF1 {α β : Type} [DecidableEq α] [DecidableEq β]
    (g : List α) (h : List β) : ℚ :=
  if refPrecision g h = 0 ∧ refRecall g h = 0 then 0
  else 2 * refPrecision g h * refRecall g h / (refPrecision g h + refRecall g h)

/-! ## Normalized mutual information (notebook cell 7 imports
`sklearn.metrics.cluster.normalized_mutual_info_score`)

The scikit-learn routine is external to the repository, so it is
modelled from the specification: the standard information-theoretic
agreement measure, normalized by the geometric mean of the two
partition entropies, with the degenerate identical-partition cases
(at most one cluster on each side) yielding 1 by convention. -/

/-- Modelled from the spec: the joint contingency count, namely the
number of positions carrying gold label `a` and hypothesis label `b`. -/
def jointCount {α β : Type} [DecidableEq α] [DecidableEq β]
    (g : List α) (h : List β) (a : α) (b : β) : Nat :=
  (g.zip h).count (a, b)

/-- Modelled from the spec: the entropy of the partition induced by a
label sequence. -/
noncomputable def entropy {α : Type} [DecidableEq α] (l : List α) : ℝ :=
  ∑ a ∈ l.toFinset,
    -(((l.count a : ℝ) / (l.length : ℝ)) *
      Real.log ((l.count a : ℝ) / (l.length : ℝ)))

/-- Modelled from the spec: the mutual information between the
partitions induced by two parallel label sequences. -/
noncomputable def mutualInfo {α β : Type} [DecidableEq α] [DecidableEq β]
    (g : List α) (h : List β) : ℝ :=
  ∑ a ∈ g.toFinset, ∑ b ∈ h.toFinset,
    ((jointCount g h a b : ℝ) / (g.length : ℝ)) *
      Real.log (((jointCount g h a b : ℝ) * (g.length : ℝ)) /
        ((g.count a : ℝ) * (h.count b : ℝ)))

/-- Modelled from the spec: normalized mutual information, the mutual
information divided by the geometric mean of the two entropies, with
value 1 by convention when both partitions have at most one cluster. -/
noncomputable def nmi {α β : Type} [DecidableEq α] [DecidableEq β]
    (g : List α) (h : List β) : ℝ :=
  if g.toFinset.card ≤ 1 ∧ h.toFinset.card ≤ 1 then 1
  else mutualInfo g h / Real.sqrt (entropy g * entropy h)

/-! ## Cluster scoring (notebook cell 14, `score_clustering`) -/

/-- The error taxonomy of the cluster-evaluation stage. -/
inductive ScoreError : Type
  | lengthMismatch : ScoreError
deriving DecidableEq

/-- Modelled from the spec where the notebook leaves a gap: notebook
cell 14 computes `ClusterScore(gld, hyp).f1()` and
`normalized_mutual_info_score(gld, hyp)` for equal-length inputs, and
per the spec the operation fails with a LengthMismatch error when the
two sequences differ in length. -/
noncomputable def score_clustering {α β : Type} [DecidableEq α] [DecidableEq β]
    (gld : List α) (hyp : List β) : Except ScoreError (ℚ × ℝ) :=
  if gld.length = hyp.length then
    Except.ok (ClusterScore.f1 gld hyp, nmi gld hyp)
  else Except.error ScoreError.lengthMismatch

/-! ## Gaussian mixture model (notebook cells 12, 13 and 15)

Scikit-learn `GaussianMixture` is external to the repository and the
spec treats the EM optimizer as a supplied black-box deterministic
numerical routine, so the model object is embedded with the optimizer
abstracted as an explicit function argument `em` of the hyperparameters,
the seed and the data, the posterior-responsibility computation of a
fitted model as an explicit function argument `post`, and the
per-sample log-likelihood of a fitted model as an explicit function
argument `ll`. -/

/-- The closed enumeration of covariance structure families. -/
inductive CovarianceType : Type
  | full : CovarianceType
  | tied : CovarianceType
  | diag : CovarianceType
  | spherical : CovarianceType
deriving DecidableEq

/-- Modelled from the spec: the fitted parameters of a mixture, namely
per-component means, covariances and mixing weights. -/
structure MixtureParams : Type where
  means : List (List ℚ)
  covariances : List (List (List ℚ))
  weights : List ℚ
deriving DecidableEq

/-- The internal state a model gains when fitted: the feature width of
the training matrix together with the estimated parameters. -/
structure FittedState : Type where
  nFeatures : Nat
  params : MixtureParams
deriving DecidableEq

/-- A feature matrix: a column count and the list of rows. -/
structure Mat : Type where
  ncols : Nat
  rows : List (List ℚ)
deriving DecidableEq

/-- The error taxonomy of the mixture-fitting stage. -/
inductive GMMError : Type
  | insufficientData : GMMError
  | notFitted : GMMError
  | dimensionMismatch : GMMError
deriving DecidableEq

/-- Notebook cell 12: a `GaussianMixture` object, constructed with its
hyperparameters and not yet fitted (`state = none`). -/
structure GaussianMixture : Type where
  nComponents : Nat
  covarianceType : CovarianceType
  randomState : Nat
  state : Option FittedState
deriving DecidableEq

/-- Modelled from the spec: `model.fit(X)` of notebook cell 13.  The EM
optimizer `em` is a supplied deterministic routine of the component
count, the covariance family, the seed and the data; fitting an empty
matrix fails with InsufficientData, otherwise the model records the
training feature width and the estimated parameters. -/
def GaussianMixture.fit (em : Nat → CovarianceType → Nat → Mat → MixtureParams)
    (m : GaussianMixture) (X : Mat) : Except GMMError GaussianMixture :=
  if X.rows = [] then Except.error GMMError.insufficientData
  else Except.ok
    ⟨m.nComponents, m.covarianceType, m.randomState,
      some ⟨X.ncols, em m.nComponents m.covarianceType m.randomState X⟩⟩

/-- The index of the first maximal entry of a list (as numpy argmax
breaks ties), 0 on the empty list. -/
def argmaxIdx : List ℚ → Nat
  | [] => 0
  | [_] => 0
  | x :: y :: xs =>
    let j := argmaxIdx (y :: xs)
    if x < (y :: xs).getD j 0 then j + 1 else 0

/-- Modelled from the spec: `model.predict(X)` of notebook cell 15.
Querying an unfitted model fails with NotFitted; querying with a
matrix whose column count differs from the training width fails with
DimensionMismatch; otherwise each row is hard-assigned to the
component of maximal posterior responsibility, computed by the
supplied routine `post` from the fitted parameters. -/
def GaussianMixture.predict (post : MixtureParams → List ℚ → List ℚ)
    (m : GaussianMixture) (X : Mat) : Except GMMError (List Nat) :=
  match m.state with
  | none => Except.error GMMError.notFitted
  | some s =>
    if X.ncols = s.nFeatures then
      Except.ok (X.rows.map fun row => argmaxIdx (post s.params row))
    else Except.error GMMError.dimensionMismatch

/-- Modelled from the spec: `model.score(X)` of notebook cell 13, the
mean per-sample log-likelihood of the matrix under the fitted mixture,
with the per-sample log-likelihood computed by the supplied routine
`ll` from the fitted parameters.  Querying an unfitted model fails
with NotFitted; querying with a matrix whose column count differs from
the training width fails with DimensionMismatch. -/
def GaussianMixture.score (ll : MixtureParams → List ℚ → ℚ)
    (m : GaussianMixture) (X : Mat) : Except GMMError ℚ :=
  match m.state with
  | none => Except.error GMMError.notFitted
  | some s =>
    if X.ncols = s.nFeatures then
      Except.ok ((X.rows.map fun row => ll s.params row).sum
        / (X.rows.length : ℚ))
    else Except.error GMMError.dimensionMismatch

/-! ## Lemmas and claim theorems -/

/-- The two successive filters of cells 9 and 10 amount to one filter
by the eligibility predicate. -/
theorem prepRows_eq_filter {V : Type} [DecidableEq V] (ctxCol : String)
    (ctxVal : V) (predCols : List String) (rows : List (String → Option V)) :
    prepRows ctxCol ctxVal predCols rows
      = rows.filter (eligibleRow ctxCol ctxVal predCols) := by
  simp only [prepRows, dropnaSubset, filterContext, List.filter_filter]
  exact List.filter_congr fun r _ => by rw [eligibleRow, Bool.and_comm]

/-- Claim C2: for every filtering configuration, the feature-matrix
row count equals the gold-label sequence length, both equal the number
of source rows whose context column equals the required value and
whose predictor columns are all non-missing, the filtered frame is a
sublist of the source rows (stable order), and row i of the matrix and
label i are read off the same filtered record. -/
theorem data_prep_counts_and_alignment {V : Type} [DecidableEq V]
    (ctxCol : String) (ctxVal : V) (predCols : List String) (goldCol : String)
    (rows : List (String → Option V)) :
    (featureMatrix ctxCol ctxVal predCols rows).length
        = (goldLabels ctxCol ctxVal predCols goldCol rows).length
    ∧ (goldLabels ctxCol ctxVal predCols goldCol rows).length
        = rows.countP
            (fun r => decide (r ctxCol = some ctxVal ∧ ∀ c ∈ predCols, (r c).isSome))
    ∧ List.Sublist (prepRows ctxCol ctxVal predCols rows) rows
    ∧ ∀ i : Nat,
        (featureMatrix ctxCol ctxVal predCols rows)[i]?
          = ((prepRows ctxCol ctxVal predCols rows)[i]?).map
              (fun r => predCols.filterMap r)
        ∧ (goldLabels ctxCol ctxVal predCols goldCol rows)[i]?
          = ((prepRows ctxCol ctxVal predCols rows)[i]?).map
              (fun r => r goldCol) := by
  have hpt : ∀ r : String → Option V,
      eligibleRow ctxCol ctxVal predCols r
        = decide (r ctxCol = some ctxVal ∧ ∀ c ∈ predCols, (r c).isSome) := by
    intro r
    rw [Bool.eq_iff_iff]
    simp [eligibleRow, List.all_eq_true]
  refine ⟨by simp [featureMatrix, goldLabels], ?_, ?_, ?_⟩
  · rw [goldLabels, List.length_map, prepRows_eq_filter,
      ← List.countP_eq_length_filter]
    exact List.countP_congr fun r _ => by rw [hpt]
  · rw [prepRows]
    exact (List.filter_sublist _).trans (List.filter_sublist _)
  · intro i
    constructor
    · rw [featureMatrix, List.getElem?_map]
    · rw [goldLabels, List.getElem?_map]

/-- Claim C10: row eligibility never reads the gold-label column.
Overwriting the "Nasal Segment" cell of a row leaves its eligibility
unchanged, and an eligible source row whose "Nasal Segment" cell is
missing still contributes its feature row to the feature matrix and a
missing label to the gold-label sequence. -/
theorem eligibility_ignores_gold_label :
    (∀ (r : String → Option Cell) (v : Option Cell),
        eligibleRow CONTEXT_COL CONTEXT_VAL X_COL_NAMES
            (Function.update r GOLD_COL v)
          = eligibleRow CONTEXT_COL CONTEXT_VAL X_COL_NAMES r)
    ∧ ∀ (r : String → Option Cell) (rows : List (String → Option Cell)),
        eligibleRow CONTEXT_COL CONTEXT_VAL X_COL_NAMES r = true →
        r GOLD_COL = none → r ∈ rows →
          X_COL_NAMES.filterMap r
              ∈ featureMatrix CONTEXT_COL CONTEXT_VAL X_COL_NAMES rows
          ∧ none ∈ goldLabels CONTEXT_COL CONTEXT_VAL X_COL_NAMES GOLD_COL rows := by
  constructor
  · intro r v
    have hctx : Function.update r GOLD_COL v CONTEXT_COL = r CONTEXT_COL :=
      Function.update_noteq (by decide) _ _
    have hpred : ∀ c ∈ X_COL_NAMES, Function.update r GOLD_COL v c = r c := by
      intro c hc
      fin_cases hc <;> exact Function.update_noteq (by decide) _ _
    rw [eligibleRow, eligibleRow, hctx]
    have : (X_COL_NAMES.all fun c => (Function.update r GOLD_COL v c).isSome)
        = X_COL_NAMES.all fun c => (r c).isSome := by
      rw [Bool.eq_iff_iff]
      simp only [List.all_eq_true]
      exact ⟨fun h c hc => by rw [← hpred c hc]; exact h c hc,
        fun h c hc => by rw [hpred c hc]; exact h c hc⟩
    rw [this]
  · intro r rows helig hgold hmem
    have hprep : r ∈ prepRows CONTEXT_COL CONTEXT_VAL X_COL_NAMES rows := by
      rw [prepRows_eq_filter, List.mem_filter]
      exact ⟨hmem, helig⟩
    constructor
    · exact List.mem_map.mpr ⟨r, hprep, rfl⟩
    · exact List.mem_map.mpr ⟨r, hprep, hgold⟩

/-- The first-maximum index returned by `argmaxIdx` is in range on a
nonempty list. -/
theorem argmaxIdx_lt_length : ∀ (l : List ℚ), l ≠ [] → argmaxIdx l < l.length
  | [], hne => absurd rfl hne
  | [_], _ => by simp [argmaxIdx]
  | x :: y :: xs, _ => by
    have ih := argmaxIdx_lt_length (y :: xs) (by simp)
    simp only [argmaxIdx]
    split
    · simpa [Nat.succ_lt_succ_iff] using ih
    · simp

/-- Every entry of a list is at most the entry at the `argmaxIdx`
position. -/
theorem argmaxIdx_max : ∀ (l : List ℚ), ∀ j < l.length,
    l.getD j 0 ≤ l.getD (argmaxIdx l) 0
  | [], j, hj => by simp at hj
  | [x], j, hj => by
    have hj0 : j = 0 := Nat.lt_one_iff.mp (by simpa using hj)
    subst hj0
    simp [argmaxIdx]
  | x :: y :: xs, j, hj => by
    have ih := argmaxIdx_max (y :: xs)
    simp only [argmaxIdx]
    by_cases hx : x < (y :: xs).getD (argmaxIdx (y :: xs)) 0
    · rw [if_pos hx, List.getD_cons_succ]
      cases j with
      | zero => simpa using le_of_lt hx
      | succ k =>
        rw [List.getD_cons_succ]
        exact ih k (by simpa [Nat.succ_lt_succ_iff] using hj)
    · rw [if_neg hx]
      push_neg at hx
      cases j with
      | zero => simp
      | succ k =>
        rw [List.getD_cons_succ, List.getD_cons_zero]
        exact le_trans (ih k (by simpa [Nat.succ_lt_succ_iff] using hj)) hx

/-- Claim C6: a successful `predict` call hard-assigns each row to a
component of maximal posterior responsibility, and the assignment is
deterministic: any call on the same fitted model and the same matrix
returns the same component-index sequence. -/
theorem predict_argmax_deterministic
    (post : MixtureParams → List ℚ → List ℚ) (m : GaussianMixture) (X : Mat)
    (res : List Nat) (hok : m.predict post X = Except.ok res) :
    (∀ (m2 : GaussianMixture) (X2 : Mat), m2 = m → X2 = X →
        m2.predict post X2 = Except.ok res)
    ∧ ∃ s, m.state = some s
        ∧ res = X.rows.map (fun row => argmaxIdx (post s.params row))
        ∧ ∀ row ∈ X.rows, ∀ j < (post s.params row).length,
            (post s.params row).getD j 0
              ≤ (post s.params row).getD (argmaxIdx (post s.params row)) 0 := by
  refine ⟨fun m2 X2 hm hX => by rw [hm, hX, hok], ?_⟩
  rcases hs : m.state with _ | s
  · simp only [GaussianMixture.predict, hs] at hok
    cases hok
  · simp only [GaussianMixture.predict, hs] at hok
    split at hok
    · refine ⟨s, rfl, ?_, ?_⟩
      · exact (Except.ok.inj hok).symm
      · intro row _ j hjlen
        exact argmaxIdx_max (post s.params row) j hjlen
    · cases hok

/-- Witness for claim C6 on a concrete fitted model, posterior routine
and one-row matrix. -/
theorem predict_argmax_deterministic_witness :
    GaussianMixture.predict (fun _ row => row)
        ⟨5, CovarianceType.full, 11215, some ⟨3, ⟨[], [], []⟩⟩⟩
        ⟨3, [[1, 2, 3]]⟩
      = Except.ok [2] :=
  (predict_argmax_deterministic (fun _ row => row)
      ⟨5, CovarianceType.full, 11215, some ⟨3, ⟨[], [], []⟩⟩⟩
      ⟨3, [[1, 2, 3]]⟩ [2] (by rfl)).1 _ _ rfl rfl

/-- Claim C5: fitting is a deterministic function of the feature
matrix, the component count, the covariance family and the seed; two
fits with identical inputs agree, in particular on every fitted
parameter. -/
theorem fit_reproducible
    (em : Nat → CovarianceType → Nat → Mat → MixtureParams)
    (m1 m2 : GaussianMixture) (X1 X2 : Mat)
    (hn : m1.nComponents = m2.nComponents)
    (hc : m1.covarianceType = m2.covarianceType)
    (hr : m1.randomState = m2.randomState) (hX : X1 = X2) :
    m1.fit em X1 = m2.fit em X2
    ∧ ∀ g1 g2, m1.fit em X1 = Except.ok g1 → m2.fit em X2 = Except.ok g2 →
        g1.state = g2.state := by
  have h : m1.fit em X1 = m2.fit em X2 := by
    rw [GaussianMixture.fit, GaussianMixture.fit, hn, hc, hr, hX]
  refine ⟨h, fun g1 g2 h1 h2 => ?_⟩
  rw [h1, h2] at h
  rw [Except.ok.inj h]

/-- Witness for claim C5 at a concrete optimizer, model and matrix. -/
theorem fit_reproducible_witness :
    GaussianMixture.fit (fun _ _ _ _ => ⟨[], [], []⟩)
        ⟨N_COMPONENTS, CovarianceType.full, SEED, none⟩ ⟨3, [[1, 2, 3]]⟩
      = GaussianMixture.fit (fun _ _ _ _ => ⟨[], [], []⟩)
        ⟨N_COMPONENTS, CovarianceType.full, SEED, none⟩ ⟨3, [[1, 2, 3]]⟩ :=
  (fit_reproducible (fun _ _ _ _ => ⟨[], [], []⟩)
      ⟨N_COMPONENTS, CovarianceType.full, SEED, none⟩
      ⟨N_COMPONENTS, CovarianceType.full, SEED, none⟩
      ⟨3, [[1, 2, 3]]⟩ ⟨3, [[1, 2, 3]]⟩ rfl rfl rfl rfl).1

/-- Claim C8: fitting an empty feature matrix fails with
InsufficientData; invoking predict, or score, before fit fails with
NotFitted; and invoking predict on a fitted model with a matrix whose
column count differs from the training matrix (such as 4 columns
against a model fit on 3) fails with DimensionMismatch. -/
theorem pipeline_error_conditions
    (em : Nat → CovarianceType → Nat → Mat → MixtureParams)
    (post : MixtureParams → List ℚ → List ℚ)
    (ll : MixtureParams → List ℚ → ℚ)
    (m : GaussianMixture) (X : Mat) :
    (X.rows = [] → m.fit em X = Except.error GMMError.insufficientData)
    ∧ (m.state = none → m.predict post X = Except.error GMMError.notFitted)
    ∧ (m.state = none → m.score ll X = Except.error GMMError.notFitted)
    ∧ ∀ (X3 X4 : Mat) (m3 : GaussianMixture), X4.ncols ≠ X3.ncols →
        m.fit em X3 = Except.ok m3 →
        m3.predict post X4 = Except.error GMMError.dimensionMismatch := by
  refine ⟨fun h => by rw [GaussianMixture.fit, if_pos h],
    fun h => by simp only [GaussianMixture.predict, h],
    fun h => by simp only [GaussianMixture.score, h],
    fun X3 X4 m3 hne hfit => ?_⟩
  rw [GaussianMixture.fit] at hfit
  split at hfit
  · cases hfit
  · rw [← Except.ok.inj hfit]
    simp only [GaussianMixture.predict]
    rw [if_neg hne]

/-- Witness for claim C8: all four error conditions at concrete
inputs, the dimension mismatch being 4 query columns against a model
fit on 3 columns. -/
theorem pipeline_error_conditions_witness :
    GaussianMixture.fit (fun _ _ _ _ => ⟨[], [], []⟩)
        ⟨5, CovarianceType.full, 11215, none⟩ ⟨3, []⟩
      = Except.error GMMError.insufficientData
    ∧ GaussianMixture.predict (fun _ row => row)
        ⟨5, CovarianceType.full, 11215, none⟩ ⟨3, [[1, 2, 3]]⟩
      = Except.error GMMError.notFitted
    ∧ GaussianMixture.score (fun _ _ => 0)
        ⟨5, CovarianceType.full, 11215, none⟩ ⟨3, [[1, 2, 3]]⟩
      = Except.error GMMError.notFitted
    ∧ GaussianMixture.predict (fun _ row => row)
        ⟨5, CovarianceType.full, 11215,
          some ⟨3, (⟨[], [], []⟩ : MixtureParams)⟩⟩ ⟨4, [[1, 2, 3, 4]]⟩
      = Except.error GMMError.dimensionMismatch :=
  ⟨(pipeline_error_conditions (fun _ _ _ _ => ⟨[], [], []⟩)
      (fun _ row => row) (fun _ _ => 0)
      ⟨5, CovarianceType.full, 11215, none⟩ ⟨3, []⟩).1 rfl,
   (pipeline_error_conditions (fun _ _ _ _ => ⟨[], [], []⟩)
      (fun _ row => row) (fun _ _ => 0)
      ⟨5, CovarianceType.full, 11215, none⟩ ⟨3, [[1, 2, 3]]⟩).2.1 rfl,
   (pipeline_error_conditions (fun _ _ _ _ => ⟨[], [], []⟩)
      (fun _ row => row) (fun _ _ => 0)
      ⟨5, CovarianceType.full, 11215, none⟩ ⟨3, [[1, 2, 3]]⟩).2.2.1 rfl,
   (pipeline_error_conditions (fun _ _ _ _ => ⟨[], [], []⟩)
      (fun _ row => row) (fun _ _ => 0)
      ⟨5, CovarianceType.full, 11215, none⟩ ⟨3, [[1, 2, 3]]⟩).2.2.2
      ⟨3, [[1, 2, 3]]⟩ ⟨4, [[1, 2, 3, 4]]⟩ _ (by decide) rfl⟩

/-- A sum of a function mapped over `List.range` is the corresponding
`Finset.range` sum. -/
theorem sum_map_range (f : Nat → ℚ) (n : Nat) :
    ((List.range n).map f).sum = ∑ i ∈ Finset.range n, f i := by
  induction n with
  | zero => simp
  | succ k ih =>
    rw [List.range_succ, List.map_append, List.sum_append,
      Finset.sum_range_succ, ih]
    simp

/-- Filtering `Finset.range` and filtering `List.range` count the same
positions. -/
theorem card_filter_range (p : Nat → Prop) [DecidablePred p] (m : Nat) :
    ((Finset.range m).filter p).card
      = ((List.range m).filter fun j => decide (p j)).length := rfl

/-- The reference gold cluster-mate set has the cardinality of the
implementation-style gold cluster-mate position list. -/
theorem refGoldMates_card {α β : Type} [DecidableEq α] [DecidableEq β]
    (g : List α) (h : List β) (i : Nat) :
    (refGoldMates g i).card = (ClusterScore.goldMates g h i).length := rfl

/-- On equal-length inputs, the reference hypothesis cluster-mate set
has the cardinality of the implementation-style hypothesis
cluster-mate position list. -/
theorem refHypMates_card {α β : Type} [DecidableEq α] [DecidableEq β]
    (g : List α) (h : List β) (hlen : g.length = h.length) (i : Nat) :
    (refHypMates h i).card = (ClusterScore.hypMates g h i).length := by
  rw [refHypMates, ClusterScore.hypMates, ← hlen]
  exact card_filter_range _ _

/-- On equal-length inputs, the intersection of the two reference
cluster-mate sets has the cardinality of the implementation-style
shared cluster-mate position list. -/
theorem refInter_card {α β : Type} [DecidableEq α] [DecidableEq β]
    (g : List α) (h : List β) (hlen : g.length = h.length) (i : Nat) :
    (refGoldMates g i ∩ refHypMates h i).card
      = (ClusterScore.bothMates g h i).length := by
  rw [refGoldMates, refHypMates, ← hlen, ← Finset.filter_and,
    card_filter_range, ClusterScore.bothMates]
  refine congrArg List.length (List.filter_congr fun j _ => ?_)
  exact Bool.decide_and _ _

/-- The implementation-style overall precision is nonnegative. -/
theorem precision_nonneg {α β : Type} [DecidableEq α] [DecidableEq β]
    (g : List α) (h : List β) : 0 ≤ ClusterScore.precision g h := by
  rw [ClusterScore.precision]
  refine div_nonneg (List.sum_nonneg fun x hx => ?_) (Nat.cast_nonneg _)
  obtain ⟨i, _, rfl⟩ := List.mem_map.mp hx
  exact div_nonneg (Nat.cast_nonneg _) (Nat.cast_nonneg _)

/-- The implementation-style overall recall is nonnegative. -/
theorem recall_nonneg {α β : Type} [DecidableEq α] [DecidableEq β]
    (g : List α) (h : List β) : 0 ≤ ClusterScore.recall g h := by
  rw [ClusterScore.recall]
  refine div_nonneg (List.sum_nonneg fun x hx => ?_) (Nat.cast_nonneg _)
  obtain ⟨i, _, rfl⟩ := List.mem_map.mp hx
  exact div_nonneg (Nat.cast_nonneg _) (Nat.cast_nonneg _)

/-- On equal-length inputs the reference overall precision agrees with
the implementation-style overall precision. -/
theorem refPrecision_eq {α β : Type} [DecidableEq α] [DecidableEq β]
    (g : List α) (h : List β) (hlen : g.length = h.length) :
    refPrecision g h = ClusterScore.precision g h := by
  rw [refPrecision, ClusterScore.precision, sum_map_range]
  congr 1
  refine Finset.sum_congr rfl fun i _ => ?_
  rw [refInter_card g h hlen i, refHypMates_card g h hlen i]

/-- On equal-length inputs the reference overall recall agrees with
the implementation-style overall recall. -/
theorem refRecall_eq {α β : Type} [DecidableEq α] [DecidableEq β]
    (g : List α) (h : List β) (hlen : g.length = h.length) :
    refRecall g h = ClusterScore.recall g h := by
  rw [refRecall, ClusterScore.recall, sum_map_range]
  congr 1
  refine Finset.sum_congr rfl fun i _ => ?_
  rw [refInter_card g h hlen i, refGoldMates_card g h i]

/-- Claim C1: on every pair of equal-length label sequences, the
B-Cubed F1 computed by the cluster-evaluation operation equals the
reference definition built from per-element cluster-mate sets,
element-averaged precision and recall, and the harmonic mean with the
both-zero convention. -/
theorem bcubed_f1_matches_reference {α β : Type}
    [DecidableEq α] [DecidableEq β] (g : List α) (h : List β)
    (hlen : g.length = h.length) : ClusterScore.f1 g h = refF1 g h := by
  simp only [ClusterScore.f1, refF1, refPrecision_eq g h hlen,
    refRecall_eq g h hlen]
  have hp := precision_nonneg g h
  have hr := recall_nonneg g h
  by_cases hz : ClusterScore.precision g h + ClusterScore.recall g h = 0
  · rw [if_pos hz, if_pos ((add_eq_zero_iff_of_nonneg hp hr).mp hz)]
  · rw [if_neg hz, if_neg fun hc => hz (by rw [hc.1, hc.2, add_zero])]

/-- Witness for claim C1 on a concrete equal-length pair. -/
theorem bcubed_f1_matches_reference_witness :
    ClusterScore.f1 ([0, 1] : List ℕ) ([7, 7] : List ℕ)
      = refF1 [0, 1] [7, 7] :=
  bcubed_f1_matches_reference [0, 1] [7, 7] rfl

/-- The distinct labels of a relabeled list are the image of the
distinct labels. -/
theorem list_toFinset_map {α β : Type} [DecidableEq α] [DecidableEq β]
    (f : α → β) (l : List α) : (l.map f).toFinset = l.toFinset.image f := by
  ext b
  simp [List.mem_map, Finset.mem_image]

/-- Counting a relabeled value in the relabeled list, for a relabeling
injective on the members of the list. -/
theorem count_map_injOn {α β : Type} [DecidableEq α] [DecidableEq β]
    (g : List α) (σ : α → β)
    (hinj : ∀ x ∈ g, ∀ y ∈ g, σ x = σ y → x = y) (a : α) (ha : a ∈ g) :
    (g.map σ).count (σ a) = g.count a := by
  show (g.map σ).countP (· == σ a) = g.countP (· == a)
  rw [List.countP_map]
  refine List.countP_congr fun x hx => ?_
  simp only [Function.comp_apply]
  by_cases hxa : x = a
  · subst hxa
    simp
  · have hσ : σ x ≠ σ a := fun hs => hxa (hinj x hx a ha hs)
    simp [hxa, hσ]

/-- Zipping a list with its relabeling pairs each element with its
image. -/
theorem zip_map_self {α β : Type} (σ : α → β) :
    ∀ l : List α, l.zip (l.map σ) = l.map fun x => (x, σ x)
  | [] => rfl
  | x :: xs => by
    rw [List.map_cons, List.zip_cons_cons, zip_map_self σ xs, List.map_cons]

/-- The contingency counts of a list against its own relabeling are
concentrated on the graph of the relabeling. -/
theorem jointCount_map {α β : Type} [DecidableEq α] [DecidableEq β]
    (g : List α) (σ : α → β) (a : α) (b : β) :
    jointCount g (g.map σ) a b = if σ a = b then g.count a else 0 := by
  rw [jointCount, zip_map_self]
  show (g.map fun x => (x, σ x)).countP (· == (a, b)) = _
  rw [List.countP_map]
  by_cases hb : σ a = b
  · rw [if_pos hb]
    show _ = g.countP (· == a)
    refine List.countP_congr fun x hx => ?_
    simp only [Function.comp_apply]
    by_cases hxa : x = a
    · subst hxa
      simp [beq_iff_eq, Prod.mk.injEq, hb]
    · simp [beq_iff_eq, Prod.mk.injEq, hxa]
  · rw [if_neg hb]
    refine List.countP_eq_zero.mpr fun x hx => ?_
    simp only [Function.comp_apply, beq_iff_eq, Prod.mk.injEq]
    rintro ⟨h1, h2⟩
    exact hb (h1 ▸ h2)

/-- Entropy rewritten with positive logarithm arguments. -/
theorem entropy_eq_sum_log {α : Type} [DecidableEq α] (l : List α) :
    entropy l = ∑ a ∈ l.toFinset,
      ((l.count a : ℝ) / (l.length : ℝ)) *
        Real.log ((l.length : ℝ) / (l.count a : ℝ)) := by
  rw [entropy]
  refine Finset.sum_congr rfl fun a ha => ?_
  have hcN : 0 < l.count a :=
    List.count_pos_iff.mpr (List.mem_toFinset.mp ha)
  have hc : (0 : ℝ) < (l.count a : ℝ) := by exact_mod_cast hcN
  have hn : (0 : ℝ) < (l.length : ℝ) := by
    exact_mod_cast Nat.lt_of_lt_of_le hcN (List.count_le_length _ _)
  rw [Real.log_div (ne_of_gt hc) (ne_of_gt hn),
    Real.log_div (ne_of_gt hn) (ne_of_gt hc)]
  ring

/-- The mutual information of a list with its own relabeling collapses
to the entropy sum, for a relabeling injective on members. -/
theorem mutualInfo_map {α β : Type} [DecidableEq α] [DecidableEq β]
    (g : List α) (σ : α → β)
    (hinj : ∀ x ∈ g, ∀ y ∈ g, σ x = σ y → x = y) :
    mutualInfo g (g.map σ)
      = ∑ a ∈ g.toFinset,
          ((g.count a : ℝ) / (g.length : ℝ)) *
            Real.log ((g.length : ℝ) / (g.count a : ℝ)) := by
  have hinjS : ∀ x ∈ g.toFinset, ∀ y ∈ g.toFinset, σ x = σ y → x = y :=
    fun x hx y hy =>
      hinj x (List.mem_toFinset.mp hx) y (List.mem_toFinset.mp hy)
  rw [mutualInfo, list_toFinset_map]
  refine Finset.sum_congr rfl fun a ha => ?_
  rw [Finset.sum_image hinjS]
  have hag : a ∈ g := List.mem_toFinset.mp ha
  have hcN : 0 < g.count a := List.count_pos_iff.mpr hag
  have hc : (0 : ℝ) < (g.count a : ℝ) := by exact_mod_cast hcN
  rw [Finset.sum_eq_single a
    (fun b hbs hba => ?_) (fun hnot => absurd ha hnot)]
  · rw [jointCount_map g σ a (σ a), if_pos rfl,
      count_map_injOn g σ hinj a hag,
      mul_div_mul_left (g.length : ℝ) (g.count a : ℝ) (ne_of_gt hc)]
  · have hσ : σ a ≠ σ b := fun hs =>
      hba (hinj b (List.mem_toFinset.mp hbs) a hag hs.symm)
    rw [jointCount_map g σ a (σ b), if_neg hσ]
    rw [Nat.cast_zero, zero_div, zero_mul]

/-- The entropy of a relabeled list equals the entropy of the list,
for a relabeling injective on members. -/
theorem entropy_map {α β : Type} [DecidableEq α] [DecidableEq β]
    (g : List α) (σ : α → β)
    (hinj : ∀ x ∈ g, ∀ y ∈ g, σ x = σ y → x = y) :
    entropy (g.map σ) = entropy g := by
  have hinjS : ∀ x ∈ g.toFinset, ∀ y ∈ g.toFinset, σ x = σ y → x = y :=
    fun x hx y hy =>
      hinj x (List.mem_toFinset.mp hx) y (List.mem_toFinset.mp hy)
  rw [entropy, entropy, list_toFinset_map, Finset.sum_image hinjS]
  refine Finset.sum_congr rfl fun a ha => ?_
  rw [count_map_injOn g σ hinj a (List.mem_toFinset.mp ha), List.length_map]

/-- A label whose cluster misses some member of the list occurs
strictly fewer times than the list length. -/
theorem count_lt_length {α : Type} [DecidableEq α] (l : List α) (a b : α)
    (hb : b ∈ l) (hne : b ≠ a) : l.count a < l.length := by
  refine Nat.lt_of_le_of_ne (List.count_le_length _ _) fun heq => ?_
  exact hne (List.count_eq_length.mp heq b hb).symm

/-- A partition with at least two clusters has positive entropy. -/
theorem entropy_pos {α : Type} [DecidableEq α] (l : List α)
    (hcard : 2 ≤ l.toFinset.card) : 0 < entropy l := by
  rw [entropy_eq_sum_log]
  refine Finset.sum_pos (fun a ha => ?_) (Finset.card_pos.mp (by omega))
  have hag : a ∈ l := List.mem_toFinset.mp ha
  have hcard1 : 1 < l.toFinset.card := by omega
  obtain ⟨b, hbs, hba⟩ := Finset.exists_ne_of_one_lt_card hcard1 a
  have hlt : l.count a < l.length :=
    count_lt_length l a b (List.mem_toFinset.mp hbs) hba
  have hcN : 0 < l.count a := List.count_pos_iff.mpr hag
  have hc : (0 : ℝ) < (l.count a : ℝ) := by exact_mod_cast hcN
  have hn : (0 : ℝ) < (l.length : ℝ) := by
    exact_mod_cast Nat.lt_trans hcN hlt
  refine mul_pos (div_pos hc hn) (Real.log_pos ((one_lt_div hc).mpr ?_))
  exact_mod_cast hlt

/-- The normalized mutual information of a list with its own
relabeling is 1, for a relabeling injective on members. -/
theorem nmi_map {α β : Type} [DecidableEq α] [DecidableEq β]
    (g : List α) (σ : α → β)
    (hinj : ∀ x ∈ g, ∀ y ∈ g, σ x = σ y → x = y) : nmi g (g.map σ) = 1 := by
  by_cases hcard : g.toFinset.card ≤ 1
  · have hcard2 : (g.map σ).toFinset.card ≤ 1 := by
      rw [list_toFinset_map]
      exact le_trans Finset.card_image_le hcard
    rw [nmi, if_pos ⟨hcard, hcard2⟩]
  · rw [nmi, if_neg fun hc => hcard hc.1]
    have hE : 0 < entropy g := entropy_pos g (by omega)
    rw [mutualInfo_map g σ hinj, ← entropy_eq_sum_log,
      entropy_map g σ hinj, Real.sqrt_mul_self (le_of_lt hE),
      div_self (ne_of_gt hE)]

/-- Element `i` is its own gold cluster mate. -/
theorem goldMates_self_mem {α β : Type} [DecidableEq α] [DecidableEq β]
    (g : List α) (h : List β) (i : Nat) (hi : i < g.length) :
    i ∈ ClusterScore.goldMates g h i := by
  rw [ClusterScore.goldMates, List.mem_filter]
  exact ⟨List.mem_range.mpr hi, by simp⟩

/-- Element `i` is its own hypothesis cluster mate. -/
theorem hypMates_self_mem {α β : Type} [DecidableEq α] [DecidableEq β]
    (g : List α) (h : List β) (i : Nat) (hi : i < g.length) :
    i ∈ ClusterScore.hypMates g h i := by
  rw [ClusterScore.hypMates, List.mem_filter]
  exact ⟨List.mem_range.mpr hi, by simp⟩

/-- The gold cluster-mate list of an in-range element is nonempty. -/
theorem goldMates_length_ne_zero {α β : Type} [DecidableEq α] [DecidableEq β]
    (g : List α) (h : List β) (i : Nat) (hi : i < g.length) :
    (ClusterScore.goldMates g h i).length ≠ 0 := by
  intro h0
  rw [List.length_eq_zero] at h0
  exact List.not_mem_nil i (h0 ▸ goldMates_self_mem g h i hi)

/-- The hypothesis cluster-mate list of an in-range element is
nonempty. -/
theorem hypMates_length_ne_zero {α β : Type} [DecidableEq α] [DecidableEq β]
    (g : List α) (h : List β) (i : Nat) (hi : i < g.length) :
    (ClusterScore.hypMates g h i).length ≠ 0 := by
  intro h0
  rw [List.length_eq_zero] at h0
  exact List.not_mem_nil i (h0 ▸ hypMates_self_mem g h i hi)

/-- Two in-range positions of a relabeled list carry equal labels
exactly when they do in the original list, for a relabeling injective
on members. -/
theorem relabel_getElem_iff {α β : Type} [DecidableEq α] [DecidableEq β]
    (g : List α) (σ : α → β)
    (hinj : ∀ x ∈ g, ∀ y ∈ g, σ x = σ y → x = y) (i j : Nat)
    (hi : i < g.length) (hj : j < g.length) :
    ((g.map σ)[j]? = (g.map σ)[i]?) ↔ (g[j]? = g[i]?) := by
  rw [List.getElem?_map, List.getElem?_map,
    List.getElem?_eq_getElem hi, List.getElem?_eq_getElem hj]
  simp only [Option.map_some', Option.some.injEq]
  exact ⟨fun hs => hinj _ (List.getElem_mem hj) _ (List.getElem_mem hi) hs,
    fun he => by rw [he]⟩

/-- Against a relabeled hypothesis, the hypothesis cluster mates are
the gold cluster mates. -/
theorem hypMates_map_eq {α β : Type} [DecidableEq α] [DecidableEq β]
    (g : List α) (σ : α → β)
    (hinj : ∀ x ∈ g, ∀ y ∈ g, σ x = σ y → x = y) (i : Nat)
    (hi : i < g.length) :
    ClusterScore.hypMates g (g.map σ) i
      = ClusterScore.goldMates g (g.map σ) i := by
  rw [ClusterScore.hypMates, ClusterScore.goldMates]
  refine List.filter_congr fun j hj => ?_
  rw [List.mem_range] at hj
  rw [Bool.eq_iff_iff]
  simp only [decide_eq_true_eq]
  exact relabel_getElem_iff g σ hinj i j hi hj

/-- Against a relabeled hypothesis, the shared cluster mates are the
gold cluster mates. -/
theorem bothMates_map_eq {α β : Type} [DecidableEq α] [DecidableEq β]
    (g : List α) (σ : α → β)
    (hinj : ∀ x ∈ g, ∀ y ∈ g, σ x = σ y → x = y) (i : Nat)
    (hi : i < g.length) :
    ClusterScore.bothMates g (g.map σ) i
      = ClusterScore.goldMates g (g.map σ) i := by
  rw [ClusterScore.bothMates, ClusterScore.goldMates]
  refine List.filter_congr fun j hj => ?_
  rw [List.mem_range] at hj
  rw [Bool.eq_iff_iff]
  simp only [Bool.and_eq_true, decide_eq_true_eq]
  exact ⟨fun hp => hp.1,
    fun h1 => ⟨h1, (relabel_getElem_iff g σ hinj i j hi hj).mpr h1⟩⟩

/-- The B-Cubed F1 of a nonempty gold sequence against its own
relabeling is 1, for a relabeling injective on members. -/
theorem f1_map {α β : Type} [DecidableEq α] [DecidableEq β]
    (g : List α) (σ : α → β)
    (hinj : ∀ x ∈ g, ∀ y ∈ g, σ x = σ y → x = y) (hne : g ≠ []) :
    ClusterScore.f1 g (g.map σ) = 1 := by
  have hn : ((g.length : ℚ)) ≠ 0 := by
    intro h0
    exact hne (List.length_eq_zero.mp (by exact_mod_cast h0))
  have hterm1 : ∀ i ∈ List.range g.length,
      ((ClusterScore.bothMates g (g.map σ) i).length : ℚ) /
          ((ClusterScore.hypMates g (g.map σ) i).length : ℚ)
        = (fun _ => (1 : ℚ)) i := by
    intro i hi
    rw [List.mem_range] at hi
    rw [bothMates_map_eq g σ hinj i hi, hypMates_map_eq g σ hinj i hi]
    exact div_self
      (by exact_mod_cast goldMates_length_ne_zero g (g.map σ) i hi)
  have hterm2 : ∀ i ∈ List.range g.length,
      ((ClusterScore.bothMates g (g.map σ) i).length : ℚ) /
          ((ClusterScore.goldMates g (g.map σ) i).length : ℚ)
        = (fun _ => (1 : ℚ)) i := by
    intro i hi
    rw [List.mem_range] at hi
    rw [bothMates_map_eq g σ hinj i hi]
    exact div_self
      (by exact_mod_cast goldMates_length_ne_zero g (g.map σ) i hi)
  have hp : ClusterScore.precision g (g.map σ) = 1 := by
    have hmap : (List.range g.length).map
        (fun i => ((ClusterScore.bothMates g (g.map σ) i).length : ℚ) /
          ((ClusterScore.hypMates g (g.map σ) i).length : ℚ))
        = (List.range g.length).map (fun _ => (1 : ℚ)) :=
      List.map_eq_map_iff.mpr hterm1
    rw [ClusterScore.precision, hmap, List.map_const', List.length_range,
      List.sum_replicate, nsmul_eq_mul, mul_one]
    exact div_self hn
  have hr : ClusterScore.recall g (g.map σ) = 1 := by
    have hmap : (List.range g.length).map
        (fun i => ((ClusterScore.bothMates g (g.map σ) i).length : ℚ) /
          ((ClusterScore.goldMates g (g.map σ) i).length : ℚ))
        = (List.range g.length).map (fun _ => (1 : ℚ)) :=
      List.map_eq_map_iff.mpr hterm2
    rw [ClusterScore.recall, hmap, List.map_const', List.length_range,
      List.sum_replicate, nsmul_eq_mul, mul_one]
    exact div_self hn
  simp only [ClusterScore.f1, hp, hr]
  norm_num

/-- Claim C3: the cluster-evaluation metrics are both 1 on any
nonempty gold sequence paired with a consistent relabeling of itself,
and in particular on gold [A,A,B,B] against hypothesis [0,0,1,1]. -/
theorem relabeling_scores_perfect :
    (∀ (α β : Type) [DecidableEq α] [DecidableEq β]
        (g : List α) (σ : α → β),
        (∀ x ∈ g, ∀ y ∈ g, σ x = σ y → x = y) → g ≠ [] →
        ClusterScore.f1 g (g.map σ) = 1 ∧ nmi g (g.map σ) = 1)
    ∧ score_clustering ["A", "A", "B", "B"] ([0, 0, 1, 1] : List ℕ)
        = Except.ok (1, 1) := by
  constructor
  · intro α β _ _ g σ hinj hne
    exact ⟨f1_map g σ hinj hne, nmi_map g σ hinj⟩
  · have hmap : ([0, 0, 1, 1] : List ℕ)
        = ["A", "A", "B", "B"].map fun s => if s = "A" then 0 else 1 := by
      decide
    have hinj : ∀ x ∈ ["A", "A", "B", "B"], ∀ y ∈ ["A", "A", "B", "B"],
        (if x = "A" then 0 else 1) = (if y = "A" then (0 : ℕ) else 1) →
          x = y := by
      decide
    rw [score_clustering, if_pos (by rw [hmap]; simp), hmap,
      f1_map _ _ hinj (by decide), nmi_map _ _ hinj]

/-- Witness for claim C3 on a second concrete relabeled pair. -/
theorem relabeling_scores_perfect_witness :
    ClusterScore.f1 ([3, 3, 5] : List ℕ) (([3, 3, 5] : List ℕ).map (· + 1)) = 1
    ∧ nmi ([3, 3, 5] : List ℕ) (([3, 3, 5] : List ℕ).map (· + 1)) = 1 :=
  relabeling_scores_perfect.1 ℕ ℕ [3, 3, 5] (· + 1) (by decide) (by decide)

/-- The B-Cubed F1 of the fully scrambled concrete pair is 1/2. -/
theorem f1_scrambled :
    ClusterScore.f1 ["A", "A", "B", "B"] ([0, 1, 0, 1] : List ℕ) = 1 / 2 := by
  have hboth : ∀ i < 4, (ClusterScore.bothMates ["A", "A", "B", "B"]
      ([0, 1, 0, 1] : List ℕ) i).length = 1 := by decide
  have hhyp : ∀ i < 4, (ClusterScore.hypMates ["A", "A", "B", "B"]
      ([0, 1, 0, 1] : List ℕ) i).length = 2 := by decide
  have hgold : ∀ i < 4, (ClusterScore.goldMates ["A", "A", "B", "B"]
      ([0, 1, 0, 1] : List ℕ) i).length = 2 := by decide
  have hlen : (["A", "A", "B", "B"] : List String).length = 4 := rfl
  have hp : ClusterScore.precision ["A", "A", "B", "B"]
      ([0, 1, 0, 1] : List ℕ) = 1 / 2 := by
    have hterm : ∀ i ∈ List.range (["A", "A", "B", "B"] : List String).length,
        ((ClusterScore.bothMates ["A", "A", "B", "B"]
            ([0, 1, 0, 1] : List ℕ) i).length : ℚ) /
          ((ClusterScore.hypMates ["A", "A", "B", "B"]
            ([0, 1, 0, 1] : List ℕ) i).length : ℚ)
        = (fun _ => (1 / 2 : ℚ)) i := by
      intro i hi
      rw [hboth i (hlen ▸ List.mem_range.mp hi),
        hhyp i (hlen ▸ List.mem_range.mp hi)]
      norm_num
    rw [ClusterScore.precision, List.map_eq_map_iff.mpr hterm,
      List.map_const', List.length_range, List.sum_replicate, nsmul_eq_mul,
      hlen]
    norm_num
  have hr : ClusterScore.recall ["A", "A", "B", "B"]
      ([0, 1, 0, 1] : List ℕ) = 1 / 2 := by
    have hterm : ∀ i ∈ List.range (["A", "A", "B", "B"] : List String).length,
        ((ClusterScore.bothMates ["A", "A", "B", "B"]
            ([0, 1, 0, 1] : List ℕ) i).length : ℚ) /
          ((ClusterScore.goldMates ["A", "A", "B", "B"]
            ([0, 1, 0, 1] : List ℕ) i).length : ℚ)
        = (fun _ => (1 / 2 : ℚ)) i := by
      intro i hi
      rw [hboth i (hlen ▸ List.mem_range.mp hi),
        hgold i (hlen ▸ List.mem_range.mp hi)]
      norm_num
    rw [ClusterScore.recall, List.map_eq_map_iff.mpr hterm,
      List.map_const', List.length_range, List.sum_replicate, nsmul_eq_mul,
      hlen]
    norm_num
  simp only [ClusterScore.f1, hp, hr]
  norm_num

/-- The mutual information of the fully scrambled concrete pair
vanishes: every contingency cell matches the independence product. -/
theorem mutualInfo_scrambled :
    mutualInfo ["A", "A", "B", "B"] ([0, 1, 0, 1] : List ℕ) = 0 := by
  rw [mutualInfo]
  refine Finset.sum_eq_zero fun a ha => Finset.sum_eq_zero fun b hb => ?_
  rw [List.mem_toFinset] at ha hb
  have hj : jointCount ["A", "A", "B", "B"] ([0, 1, 0, 1] : List ℕ) a b
      = 1 := by
    fin_cases ha <;> fin_cases hb <;> decide
  have hca : (["A", "A", "B", "B"] : List String).count a = 2 := by
    fin_cases ha <;> decide
  have hcb : ([0, 1, 0, 1] : List ℕ).count b = 2 := by
    fin_cases hb <;> decide
  rw [hj, hca, hcb,
    show (["A", "A", "B", "B"] : List String).length = 4 from rfl]
  norm_num

/-- The normalized mutual information of the fully scrambled concrete
pair is 0. -/
theorem nmi_scrambled :
    nmi ["A", "A", "B", "B"] ([0, 1, 0, 1] : List ℕ) = 0 := by
  have hcard : ¬((["A", "A", "B", "B"] : List String).toFinset.card ≤ 1
      ∧ ([0, 1, 0, 1] : List ℕ).toFinset.card ≤ 1) := by decide
  rw [nmi, if_neg hcard, mutualInfo_scrambled, zero_div]

/-- Claim C4: on gold [A,A,B,B] against the fully scrambled hypothesis
[0,1,0,1] both metrics are strictly below 1, and on every pair of
equal-length sequences no division by zero can arise: every in-range
element has nonempty hypothesis and gold cluster-mate lists, a
nonempty input has nonzero length as a divisor, and the degenerate
both-zero case yields the conventional F1 value 0 rather than a
fault. -/
theorem scrambled_imperfect_and_no_div_zero :
    (ClusterScore.f1 ["A", "A", "B", "B"] ([0, 1, 0, 1] : List ℕ) < 1
      ∧ nmi ["A", "A", "B", "B"] ([0, 1, 0, 1] : List ℕ) < 1)
    ∧ ∀ (α β : Type) [DecidableEq α] [DecidableEq β]
        (g : List α) (h : List β), g.length = h.length →
        (∀ i < g.length,
            (ClusterScore.hypMates g h i).length ≠ 0
            ∧ (ClusterScore.goldMates g h i).length ≠ 0)
        ∧ (g ≠ [] → (g.length : ℚ) ≠ 0)
        ∧ (ClusterScore.precision g h + ClusterScore.recall g h = 0 →
            ClusterScore.f1 g h = 0) := by
  refine ⟨⟨by rw [f1_scrambled]; norm_num, by rw [nmi_scrambled]; norm_num⟩,
    ?_⟩
  intro α β _ _ g h _
  refine ⟨fun i hi => ⟨hypMates_length_ne_zero g h i hi,
    goldMates_length_ne_zero g h i hi⟩, ?_, ?_⟩
  · intro hne h0
    exact hne (List.length_eq_zero.mp (by exact_mod_cast h0))
  · intro hz
    simp only [ClusterScore.f1, if_pos hz]

/-- Witness for claim C4 on a concrete equal-length pair. -/
theorem scrambled_imperfect_and_no_div_zero_witness :
    (ClusterScore.hypMates ([0] : List ℕ) ([1] : List ℕ) 0).length ≠ 0
    ∧ (ClusterScore.goldMates ([0] : List ℕ) ([1] : List ℕ) 0).length ≠ 0 :=
  (scrambled_imperfect_and_no_div_zero.2 ℕ ℕ [0] [1] rfl).1 0 (by decide)

/-- Claim C7: the cluster-evaluation operation fails with a
LengthMismatch error exactly when the two label sequences differ in
length, and succeeds exactly when they agree. -/
theorem score_clustering_length_mismatch {α β : Type}
    [DecidableEq α] [DecidableEq β] (gld : List α) (hyp : List β) :
    (gld.length ≠ hyp.length →
        score_clustering gld hyp = Except.error ScoreError.lengthMismatch)
    ∧ ((∃ r, score_clustering gld hyp = Except.ok r)
        ↔ gld.length = hyp.length) := by
  constructor
  · intro h
    rw [score_clustering, if_neg h]
  · constructor
    · rintro ⟨r, hr⟩
      by_contra h
      rw [score_clustering, if_neg h] at hr
      cases hr
    · intro h
      exact ⟨_, by rw [score_clustering, if_pos h]⟩

/-- Witness for claim C7 on a concrete unequal-length pair. -/
theorem score_clustering_length_mismatch_witness :
    score_clustering ([0] : List ℕ) ([] : List ℕ)
      = Except.error ScoreError.lengthMismatch :=
  (score_clustering_length_mismatch [0] []).1 (by decide)

/-- Claim C9: on equal-length label sequences the cluster-evaluation
operation succeeds and its result value is the pair of the B-Cubed F1
metric and the normalized-mutual-information metric. -/
theorem score_clustering_returns_metrics {α β : Type}
    [DecidableEq α] [DecidableEq β] (gld : List α) (hyp : List β)
    (hlen : gld.length = hyp.length) :
    score_clustering gld hyp
      = Except.ok (ClusterScore.f1 gld hyp, nmi gld hyp) := by
  rw [score_clustering, if_pos hlen]

/-- Witness for claim C9 on a concrete equal-length pair. -/
theorem score_clustering_returns_metrics_witness :
    score_clustering ([0, 1] : List ℕ) ([5, 5] : List ℕ)
      = Except.ok (ClusterScore.f1 [0, 1] [5, 5], nmi [0, 1] [5, 5]) :=
  score_clustering_returns_metrics [0, 1] [5, 5] rfl

/-- Witness for claim C10 at a concrete row with a missing gold
label. -/
theorem eligibility_ignores_gold_label_witness :
    X_COL_NAMES.filterMap
        (fun c => if c = CONTEXT_COL then some CONTEXT_VAL
          else if c = GOLD_COL then none else some (Cell.num 0))
      ∈ featureMatrix CONTEXT_COL CONTEXT_VAL X_COL_NAMES
          [fun c => if c = CONTEXT_COL then some CONTEXT_VAL
            else if c = GOLD_COL then none else some (Cell.num 0)]
    ∧ none ∈ goldLabels CONTEXT_COL CONTEXT_VAL X_COL_NAMES GOLD_COL
        [fun c => if c = CONTEXT_COL then some CONTEXT_VAL
          else if c = GOLD_COL then none else some (Cell.num 0)] :=
  eligibility_ignores_gold_label.2 _ _ (by decide) (by decide)
    (List.mem_singleton.mpr rfl)
